import Mathlib

/-!
Verification of the parking3 location-sharing server.

The repository contains two Express server variants sharing one Mongo data
model (`models/User`, `models/Location`):

* `src/backend/app.js` — registration hashes the password with
  `bcrypt.hash(password, 10)`, login compares with `bcrypt.compare`, issues a
  JWT (`expiresIn: "1h"`), and `GET /locations` is guarded by the
  `authenticateJWT` middleware.  Embedded below in namespace `Backend`.
* `src/unnamed/part_000` — a legacy variant: registration stores the
  plaintext password, `POST /login` compares `password === user.password`,
  `GET /login` reads credentials from the query string and calls
  `bcrypt.compare` even though `bcrypt` is never imported in that file, and
  `POST /send-location` / `GET /locations` / `GET /users` handle location
  samples and the user listing.  Embedded below in namespace `Legacy`.

JavaScript numbers are modelled by `JSNum` (a rational or one of the
non-finite IEEE values); absent request-body fields are modelled by `none`
(for numeric fields) or by the empty string (JavaScript falsiness of `""`
coincides with absence for the `!field` checks used by the handlers).
`bcrypt` is modelled deterministically: the hash is the password tagged with
the bcrypt format prefix, and `bcrypt.compare` checks the stored string
against the hash of the candidate; the JWT is modelled by an injective
string encoding of the payload together with the signing secret, verified by
parsing the string back.
-/

/-- JavaScript number: a finite rational or one of the IEEE special values. -/
inductive JSNum where
  | finite (q : ℚ)
  | nan
  | posInf
  | negInf
deriving DecidableEq, Repr

/-- Model of JavaScript `isFinite`: true exactly on finite numbers
(`isFinite(NaN)`, `isFinite(±Infinity)` are false). -/
def JSNum.isFinite : JSNum → Bool
  | .finite _ => true
  | _ => false

/-- Model of the JavaScript `<` comparison on numbers: any comparison with
`NaN` is false, `-Infinity` is below every other value and `Infinity` above. -/
def JSNum.lt : JSNum → JSNum → Bool
  | .finite a, .finite b => decide (a < b)
  | .nan, _ => false
  | _, .nan => false
  | .negInf, .negInf => false
  | .negInf, _ => true
  | _, .negInf => false
  | .posInf, _ => false
  | .finite _, .posInf => true

/-- Persisted User record (`models/User`): Mongo `_id` modelled as a `Nat`
assigned by the store, plus the `username`, `email` and `password` fields.
In the `Backend` variant the `password` field holds the bcrypt hash; in the
`Legacy` variant it holds whatever the register handler wrote. -/
structure User where
  id : Nat
  username : String
  email : String
  password : String
deriving DecidableEq, Repr

/-- The Users collection together with the next `_id` the store will assign. -/
structure UserStore where
  users : List User
  nextId : Nat
deriving DecidableEq, Repr

/-- Model of `User.findOne({ email })`: the first stored user with that email. -/
def findByEmail (s : UserStore) (email : String) : Option User :=
  s.users.find? (fun u => u.email == email)

/-- Persisted LocationSample record (`models/Location`): Mongo `_id` as a
`Nat`, the coordinates, and the `createdAt` timestamp assigned at write time. -/
structure LocationSample where
  id : Nat
  latitude : JSNum
  longitude : JSNum
  createdAt : Nat
deriving DecidableEq, Repr

/-- The Locations collection together with the next `_id` the store assigns. -/
structure LocStore where
  samples : List LocationSample
  nextId : Nat
deriving DecidableEq, Repr

/-- Comparison used to model Mongo `sort("-createdAt")`: `a` may come before
`b` when `a.createdAt ≥ b.createdAt` (descending by creation time). -/
def byCreatedAtDesc (a b : LocationSample) : Bool :=
  decide (b.createdAt ≤ a.createdAt)

/-- Model of `Location.find().sort("-createdAt").limit(10)`, the query run by
the `GET /locations` handlers of both variants: all samples sorted by
`createdAt` descending, truncated to the first 10. -/
def listRecent (store : LocStore) : List LocationSample :=
  (store.samples.mergeSort byCreatedAtDesc).take 10

/-- Deterministic model of `bcrypt.hash(password, cost)`: the output carries
the bcrypt format prefix `$2b$<cost>$` followed by a digest determined by the
password.  The relevant properties of real bcrypt are preserved: the output
is distinguishable from every plaintext of the same password (format prefix)
and `bcryptCompare` succeeds exactly on the hashed password. -/
def bcryptHash (password : String) (cost : Nat) : String :=
  "$2b$" ++ toString cost ++ "$" ++ password

/-- Deterministic model of `bcrypt.compare(candidate, stored)`: true exactly
when `stored` is the bcrypt hash (cost 10, the only cost used by this
repository) of `candidate`.  On a stored string that is not a bcrypt hash —
for example a plaintext password — the comparison is false, matching the
library's behaviour on malformed hashes. -/
def bcryptCompare (candidate stored : String) : Bool :=
  stored == bcryptHash candidate 10

/-- Decoded JWT claims: the payload `{ id: user._id, email: user.email }`
signed by `POST /login` of the Backend variant. -/
structure Claims where
  id : Nat
  email : String
deriving DecidableEq, Repr

/-- Unary digits used by the injective token encoding. -/
def unary (n : Nat) : List Char :=
  List.replicate n '1'

/-- Model of `jwt.sign({ id, email }, secret, { expiresIn: "1h" })` with
`exp` the absolute expiration instant: an injective string encoding
`unary id # unary exp # unary |email| # email ++ secret`.  The secret is
embedded where the real token carries the HMAC signature, so that
verification with the wrong secret fails. -/
def jwtSign (id : Nat) (email : String) (exp : Nat) (secret : String) : String :=
  String.mk (unary id ++ '#' :: (unary exp ++ '#' :: (unary email.length ++ '#' :: (email.data ++ secret.data))))

/-- Read one unary-encoded field of a token: the count of leading `'1'`
digits, consumed together with the following `'#'` terminator; `none` when
the terminator is absent. -/
def readField (cs : List Char) : Option (Nat × List Char) :=
  if (cs.dropWhile (fun c => c == '1')).head? = some '#' then
    some ((cs.takeWhile (fun c => c == '1')).length,
          (cs.dropWhile (fun c => c == '1')).tail)
  else none

/-- Parse a token string back into `(id, email, exp, signature)`; `none` on a
malformed token. -/
def jwtDecode (token : String) : Option (Nat × String × Nat × String) :=
  (readField token.data).bind (fun a =>
    (readField a.2).bind (fun b =>
      (readField b.2).bind (fun c =>
        if c.1 ≤ c.2.length then
          some (a.1, String.mk (c.2.take c.1), b.1, String.mk (c.2.drop c.1))
        else none)))

/-- Model of `jwt.verify(token, secret)` at time `now`: the decoded claims
when the token parses, its signature part matches the secret, and it has not
expired; `none` (the `err` branch) on a malformed, forged or expired token. -/
def jwtVerify (token : String) (secret : String) (now : Nat) : Option Claims :=
  match jwtDecode token with
  | none => none
  | some (id, email, exp, sig) =>
    if sig == secret && decide (now < exp) then some ⟨id, email⟩ else none

/-- Model of the JavaScript `split` with a single-character separator, as in
`authorization.split(" ")`: splits into the (possibly empty) chunks between
occurrences of the separator. -/
def splitCh (sep : Char) : List Char → List (List Char)
  | [] => [[]]
  | c :: cs =>
    match splitCh sep cs with
    | [] => [[c]]
    | r :: rs => if c = sep then [] :: r :: rs else (c :: r) :: rs

namespace Backend

/-- Outcome of `POST /register` in `src/backend/app.js`: 400 when a field is
missing, 400 when the email is already registered (the conflict branch), 201
on success (the response body carries only a message, no hash). -/
inductive RegisterResult where
  | missingFields
  | emailTaken
  | created
deriving DecidableEq, Repr

/-- HTTP status of each `POST /register` outcome. -/
def RegisterResult.status : RegisterResult → Nat
  | .missingFields => 400
  | .emailTaken => 400
  | .created => 201

/-- Model of `POST /register` in `src/backend/app.js`: checks
`!username || !email || !password` (absent fields modelled as `""`), then
`User.findOne({ email })`, then stores the user with
`password: await bcrypt.hash(password, 10)`. -/
def register (s : UserStore) (username email password : String) :
    RegisterResult × UserStore :=
  if username.isEmpty || email.isEmpty || password.isEmpty then
    (.missingFields, s)
  else
    match findByEmail s email with
    | some _ => (.emailTaken, s)
    | none =>
      let u : User := ⟨s.nextId, username, email, bcryptHash password 10⟩
      (.created, ⟨s.users ++ [u], s.nextId + 1⟩)

/-- Outcome of `POST /login` in `src/backend/app.js`: 400 on missing fields,
404 on unknown email, 401 when `bcrypt.compare` fails, otherwise 200 with the
signed token and the public user fields. -/
inductive LoginResult where
  | missingFields
  | userNotFound
  | invalidPassword
  | success (token : String) (id : Nat) (username email : String)
deriving DecidableEq, Repr

/-- HTTP status of each `POST /login` outcome. -/
def LoginResult.status : LoginResult → Nat
  | .missingFields => 400
  | .userNotFound => 404
  | .invalidPassword => 401
  | .success _ _ _ _ => 200

/-- Model of `POST /login` in `src/backend/app.js`: checks the fields, looks
the user up by email, compares with `bcrypt.compare(password, user.password)`
and on success signs `{ id, email }` expiring one hour (3600 seconds) after
`now`. -/
def login (s : UserStore) (email password : String) (secret : String) (now : Nat) :
    LoginResult :=
  if email.isEmpty || password.isEmpty then .missingFields
  else
    match findByEmail s email with
    | none => .userNotFound
    | some u =>
      if bcryptCompare password u.password then
        .success (jwtSign u.id u.email (now + 3600) secret) u.id u.username u.email
      else .invalidPassword

/-- Model of `req.headers.authorization?.split(" ")[1]` followed by the
`if (!token)` falsiness check: `none` when the header is absent, when the
split has no second component, or when that component is the empty string. -/
def extractToken (authHeader : Option String) : Option String :=
  match authHeader with
  | none => none
  | some h =>
    match (splitCh ' ' h.data).get? 1 with
    | none => none
    | some tok => if tok.isEmpty then none else some (String.mk tok)

/-- Outcome of the `authenticateJWT` middleware: 401 without a token, 403 when
`jwt.verify` errors, otherwise the handler runs with `req.user` set to the
decoded claims. -/
inductive AuthResult where
  | unauthorized
  | forbidden
  | proceed (claims : Claims)
deriving DecidableEq, Repr

/-- Model of the `authenticateJWT` middleware in `src/backend/app.js`. -/
def authenticateJWT (authHeader : Option String) (secret : String) (now : Nat) :
    AuthResult :=
  match extractToken authHeader with
  | none => .unauthorized
  | some tok =>
    match jwtVerify tok secret now with
    | none => .forbidden
    | some c => .proceed c

/-- Model of the protected `GET /locations` route in `src/backend/app.js`:
the middleware gate followed by the recent-samples query; the handler body
(and hence the query) runs only when the middleware proceeds. -/
def getLocations (authHeader : Option String) (secret : String) (now : Nat)
    (store : LocStore) : Nat × Option (List LocationSample) :=
  match authenticateJWT authHeader secret now with
  | .unauthorized => (401, none)
  | .forbidden => (403, none)
  | .proceed _ => (200, some (listRecent store))

end Backend

namespace Legacy

/-- Model of `POST /register` in `src/unnamed/part_000`: same field and
duplicate-email checks as the Backend variant, but the user is stored with
`password` set to the plaintext password (`new User({ username, email,
password })`, no hashing). -/
def register (s : UserStore) (username email password : String) :
    Backend.RegisterResult × UserStore :=
  if username.isEmpty || email.isEmpty || password.isEmpty then
    (.missingFields, s)
  else
    match findByEmail s email with
    | some _ => (.emailTaken, s)
    | none =>
      let u : User := ⟨s.nextId, username, email, password⟩
      (.created, ⟨s.users ++ [u], s.nextId + 1⟩)

/-- Outcome of `POST /login` in `src/unnamed/part_000` (no token is issued). -/
inductive PostLoginResult where
  | missingFields
  | userNotFound
  | invalidPassword
  | success (id : Nat) (username email : String)
deriving DecidableEq, Repr

/-- Model of `POST /login` in `src/unnamed/part_000`: the password check is
the plaintext comparison `password === user.password`. -/
def postLogin (s : UserStore) (email password : String) : PostLoginResult :=
  if email.isEmpty || password.isEmpty then .missingFields
  else
    match findByEmail s email with
    | none => .userNotFound
    | some u =>
      if password == u.password then .success u.id u.username u.email
      else .invalidPassword

/-- Outcome of `GET /login` in `src/unnamed/part_000`.  The handler reads
`email` and `password` from `req.query`; after the user lookup it evaluates
`await bcrypt.compare(password, user.password)`, but `bcrypt` is never
imported in that file, so the expression throws a `ReferenceError` which the
surrounding `catch` turns into a 500 response.  The 200 branch after the
comparison is therefore dead code for existing users and has no constructor
here. -/
inductive GetLoginResult where
  | missingFields
  | userNotFound
  | serverError
deriving DecidableEq, Repr

/-- HTTP status of each `GET /login` outcome. -/
def GetLoginResult.status : GetLoginResult → Nat
  | .missingFields => 400
  | .userNotFound => 404
  | .serverError => 500

/-- Model of `GET /login` in `src/unnamed/part_000`: credentials come from
the query string (`none` for an absent parameter), and the handler reaches the
throwing `bcrypt.compare` call exactly when both parameters are non-empty and
the email matches a stored user. -/
def getLogin (s : UserStore) (email password : Option String) : GetLoginResult :=
  match email, password with
  | none, _ => .missingFields
  | _, none => .missingFields
  | some e, some p =>
    if e.isEmpty || p.isEmpty then .missingFields
    else
      match findByEmail s e with
      | none => .userNotFound
      | some _ => .serverError

/-- Public projection of a User as returned by `GET /users`: the
`{ password: 0 }` projection keeps every field but `password`. -/
structure PublicUser where
  id : Nat
  username : String
  email : String
deriving DecidableEq, Repr

/-- Model of `GET /users` in `src/unnamed/part_000`:
`User.find({}, { password: 0 })`. -/
def getUsers (s : UserStore) : List PublicUser :=
  s.users.map (fun u => ⟨u.id, u.username, u.email⟩)

/-- Outcome of `POST /send-location` in `src/unnamed/part_000`. -/
inductive SendLocationResult where
  | missingFields
  | invalidLatitude
  | invalidLongitude
  | saved (loc : LocationSample)
deriving DecidableEq, Repr

/-- HTTP status of each `POST /send-location` outcome. -/
def SendLocationResult.status : SendLocationResult → Nat
  | .missingFields => 400
  | .invalidLatitude => 400
  | .invalidLongitude => 400
  | .saved _ => 200

/-- Model of `POST /send-location` in `src/unnamed/part_000`: the
`latitude == null || longitude == null` check (a `none` field), then
`!isFinite(latitude) || latitude < -90 || latitude > 90`, then the same for
longitude against ±180; on success the sample is stored with a fresh id and
`createdAt = now`. -/
def sendLocation (store : LocStore) (latitude longitude : Option JSNum) (now : Nat) :
    SendLocationResult × LocStore :=
  match latitude, longitude with
  | none, _ => (.missingFields, store)
  | _, none => (.missingFields, store)
  | some lat, some lon =>
    if !lat.isFinite || JSNum.lt lat (.finite (-90)) || JSNum.lt (.finite 90) lat then
      (.invalidLatitude, store)
    else if !lon.isFinite || JSNum.lt lon (.finite (-180)) || JSNum.lt (.finite 180) lon then
      (.invalidLongitude, store)
    else
      let loc : LocationSample := ⟨store.nextId, lat, lon, now⟩
      (.saved loc, ⟨store.samples ++ [loc], store.nextId + 1⟩)

end Legacy

/-- A register-request sequence applied in order (the store after each call,
successful or not, feeds the next), used to state store invariants over every
sequence of operations. -/
def registerSeq (s : UserStore) : List (String × String × String) → UserStore
  | [] => s
  | (u, e, p) :: rest => registerSeq (Backend.register s u e p).2 rest

/-- Invariant: at most one stored User per email address. -/
def emailsNodup (s : UserStore) : Prop :=
  s.users.Pairwise (fun a b => a.email ≠ b.email)

/-! Helper lemmas about the token encoding and the header split. -/

lemma takeWhile_unary (n : Nat) (l : List Char) :
    ((unary n ++ '#' :: l).takeWhile (fun c => c == '1')) = unary n := by
  induction n with
  | zero => simp [unary]
  | succ n ih =>
    simp [unary, List.replicate_succ]

lemma dropWhile_unary (n : Nat) (l : List Char) :
    ((unary n ++ '#' :: l).dropWhile (fun c => c == '1')) = '#' :: l := by
  induction n with
  | zero => simp [unary]
  | succ n ih =>
    simp [unary, List.replicate_succ]

lemma length_unary (n : Nat) : (unary n).length = n := by
  simp [unary]

lemma readField_unary (n : Nat) (l : List Char) :
    readField (unary n ++ '#' :: l) = some (n, l) := by
  unfold readField
  rw [dropWhile_unary, takeWhile_unary, length_unary]
  simp

lemma jwtDecode_jwtSign (id : Nat) (email : String) (exp : Nat) (secret : String) :
    jwtDecode (jwtSign id email exp secret) = some (id, email, exp, secret) := by
  have hdata : (jwtSign id email exp secret).data =
      unary id ++ '#' :: (unary exp ++ '#' :: (unary email.length ++ '#' :: (email.data ++ secret.data))) := rfl
  have hlen : email.length = email.data.length := rfl
  unfold jwtDecode
  rw [hdata, readField_unary, Option.some_bind, readField_unary, Option.some_bind,
    readField_unary, Option.some_bind]
  have hle : email.length ≤ (email.data ++ secret.data).length := by
    rw [hlen, List.length_append]
    exact Nat.le_add_right _ _
  rw [if_pos hle]
  simp only [hlen]
  rw [List.take_left, List.drop_left]

lemma jwtVerify_jwtSign (id : Nat) (email : String) (exp : Nat) (secret : String)
    (now : Nat) (h : now < exp) :
    jwtVerify (jwtSign id email exp secret) secret now = some ⟨id, email⟩ := by
  simp [jwtVerify, jwtDecode_jwtSign, h]

lemma splitCh_ne_nil (sep : Char) (l : List Char) : splitCh sep l ≠ [] := by
  cases l with
  | nil => simp [splitCh]
  | cons c cs =>
    unfold splitCh
    cases splitCh sep cs with
    | nil => simp
    | cons r rs =>
      by_cases h : c = sep <;> simp [h]

lemma splitCh_no_sep (sep : Char) (l : List Char) (h : ∀ c ∈ l, c ≠ sep) :
    splitCh sep l = [l] := by
  induction l with
  | nil => rfl
  | cons c cs ih =>
    have hc : c ≠ sep := h c (List.mem_cons_self c cs)
    have ih2 := ih (fun x hx => h x (List.mem_cons_of_mem c hx))
    unfold splitCh
    rw [ih2]
    simp [hc]

lemma splitCh_append_no_sep (sep : Char) (l m : List Char) (r : List Char)
    (rs : List (List Char)) (h : ∀ c ∈ l, c ≠ sep) (hm : splitCh sep m = r :: rs) :
    splitCh sep (l ++ m) = (l ++ r) :: rs := by
  induction l with
  | nil => simpa using hm
  | cons c cs ih =>
    have hc : c ≠ sep := h c (List.mem_cons_self c cs)
    have ih2 := ih (fun x hx => h x (List.mem_cons_of_mem c hx))
    show splitCh sep (c :: (cs ++ m)) = (c :: (cs ++ r)) :: rs
    unfold splitCh
    rw [ih2]
    simp [hc]

lemma register_created (s : UserStore) (username email password : String)
    (h : (Backend.register s username email password).1 = .created) :
    username.isEmpty = false ∧ email.isEmpty = false ∧ password.isEmpty = false ∧
    findByEmail s email = none ∧
    (Backend.register s username email password).2 =
      ⟨s.users ++ [⟨s.nextId, username, email, bcryptHash password 10⟩], s.nextId + 1⟩ := by
  cases hb : (username.isEmpty || email.isEmpty || password.isEmpty) with
  | true => simp [Backend.register, hb] at h
  | false =>
    cases hfe : findByEmail s email with
    | some u => simp [Backend.register, hb, hfe] at h
    | none =>
      have hb2 : username.isEmpty = false ∧ email.isEmpty = false ∧ password.isEmpty = false := by
        simpa [Bool.or_eq_false_iff, and_assoc] using hb
      refine ⟨hb2.1, hb2.2.1, hb2.2.2, rfl, ?_⟩
      simp [Backend.register, hb, hfe]

/-! Claim theorems. -/

/-- C1: the claim says that for every sequence of register operations the
persisted password field never equals the plaintext supplied at registration.
The legacy `POST /register` of `src/unnamed/part_000` violates this: at the
failing input it persists the plaintext `"secret1"` verbatim.  The
`src/backend/app.js` variant stores the bcrypt hash, which differs from the
plaintext, confirming that the spec describes the intended (hashed) design. -/
theorem C1_legacy_register_persists_plaintext :
    ((Legacy.register ⟨[], 0⟩ "alice" "a@x.com" "secret1").2.users.map
        (fun u => u.password)) = ["secret1"] ∧
    ((Backend.register ⟨[], 0⟩ "alice" "a@x.com" "secret1").2.users.map
        (fun u => u.password)) = ["$2b$10$secret1"] ∧
    bcryptHash "secret1" 10 ≠ "secret1" := by
  refine ⟨rfl, rfl, ?_⟩
  decide

/-- C2: the claim says credentials are authenticated only from POST bodies
and no login handler compares plaintext passwords.  The legacy variant
violates both: its `POST /login` authenticates by the plaintext comparison
`password === user.password` (first conjunct: the plaintext-stored password
logs in successfully), and its `GET /login` consumes `email`/`password` from
the query string (second and third conjuncts: the query parameters drive the
lookup and the outcome). -/
theorem C2_legacy_plaintext_and_query_credentials :
    Legacy.postLogin (Legacy.register ⟨[], 0⟩ "alice" "a@x.com" "secret1").2
      "a@x.com" "secret1" = .success 0 "alice" "a@x.com" ∧
    Legacy.getLogin (Legacy.register ⟨[], 0⟩ "alice" "a@x.com" "secret1").2
      (some "a@x.com") (some "anything") = .serverError ∧
    Legacy.getLogin (Legacy.register ⟨[], 0⟩ "alice" "a@x.com" "secret1").2
      (some "nobody@x.com") (some "anything") = .userNotFound :=
  ⟨rfl, rfl, rfl⟩

lemma getUsers_map_eq (l1 l2 : List User)
    (h : List.Forall₂
      (fun u v : User => u.id = v.id ∧ u.username = v.username ∧ u.email = v.email) l1 l2) :
    l1.map (fun u => (⟨u.id, u.username, u.email⟩ : Legacy.PublicUser))
      = l2.map (fun u => (⟨u.id, u.username, u.email⟩ : Legacy.PublicUser)) := by
  induction h with
  | nil => rfl
  | cons h1 _ ih =>
    obtain ⟨hi, hu, he⟩ := h1
    simp only [List.map_cons, ih, hi, hu, he]

/-- C8: the `GET /users` listing of `src/unnamed/part_000` never reveals
password hashes: for any two store states whose users differ only in the
`password` field, the response is identical (and each returned record, of
type `PublicUser`, carries no password field at all). -/
theorem C8_getUsers_independent_of_passwords (s1 s2 : UserStore)
    (h : List.Forall₂
      (fun u v : User => u.id = v.id ∧ u.username = v.username ∧ u.email = v.email)
      s1.users s2.users) :
    Legacy.getUsers s1 = Legacy.getUsers s2 := by
  unfold Legacy.getUsers
  exact getUsers_map_eq s1.users s2.users h

/-- C8 witness: two concrete stores that differ only in the stored password
produce the same `GET /users` response. -/
theorem C8_witness :
    Legacy.getUsers ⟨[⟨0, "alice", "a@x.com", "secret1"⟩], 1⟩
      = Legacy.getUsers ⟨[⟨0, "alice", "a@x.com", "hunter2"⟩], 1⟩ :=
  C8_getUsers_independent_of_passwords _ _
    (List.Forall₂.cons ⟨rfl, rfl, rfl⟩ List.Forall₂.nil)

/-- C9: in the legacy variant, every `GET /login` request carrying non-empty
query credentials whose email matches a stored user reaches the
`bcrypt.compare` call; since `bcrypt` is not imported in
`src/unnamed/part_000`, that call throws and the handler answers 500, so a
200 response is unreachable for existing users. -/
theorem C9_getLogin_existing_user_is_500 (s : UserStore) (e p : String) (u : User)
    (he : e.isEmpty = false) (hp : p.isEmpty = false)
    (hu : findByEmail s e = some u) :
    Legacy.getLogin s (some e) (some p) = .serverError ∧
    (Legacy.getLogin s (some e) (some p)).status = 500 := by
  have hres : Legacy.getLogin s (some e) (some p) = .serverError := by
    simp [Legacy.getLogin, he, hp, hu]
  refine ⟨hres, ?_⟩
  rw [hres]
  rfl

/-- C9 witness: a concrete `GET /login` with an existing email answers 500. -/
theorem C9_witness :
    Legacy.getLogin ⟨[⟨0, "alice", "a@x.com", "secret1"⟩], 1⟩
        (some "a@x.com") (some "pw") = .serverError ∧
    (Legacy.getLogin ⟨[⟨0, "alice", "a@x.com", "secret1"⟩], 1⟩
        (some "a@x.com") (some "pw")).status = 500 :=
  C9_getLogin_existing_user_is_500 ⟨[⟨0, "alice", "a@x.com", "secret1"⟩], 1⟩
    "a@x.com" "pw" ⟨0, "alice", "a@x.com", "secret1"⟩ rfl rfl rfl

/-- C3: every `POST /send-location` whose latitude or longitude is missing,
non-finite, or out of range ([-90,90] / [-180,180]) answers 400 and leaves
the location store unchanged (no LocationSample is persisted). -/
theorem C3_sendLocation_rejects_invalid (store : LocStore)
    (latitude longitude : Option JSNum) (now : Nat)
    (h : latitude = none ∨ longitude = none ∨
      (∃ v, latitude = some v ∧ (v.isFinite = false ∨
        ∃ q, v = JSNum.finite q ∧ (q < -90 ∨ 90 < q))) ∨
      (∃ v, longitude = some v ∧ (v.isFinite = false ∨
        ∃ q, v = JSNum.finite q ∧ (q < -180 ∨ 180 < q)))) :
    ((Legacy.sendLocation store latitude longitude now).1).status = 400 ∧
    (Legacy.sendLocation store latitude longitude now).2 = store := by
  cases latitude with
  | none => cases longitude with
    | none => exact ⟨rfl, rfl⟩
    | some lon => exact ⟨rfl, rfl⟩
  | some lat =>
    cases longitude with
    | none => exact ⟨rfl, rfl⟩
    | some lon =>
      cases hbl : (!lat.isFinite || JSNum.lt lat (JSNum.finite (-90))
          || JSNum.lt (JSNum.finite 90) lat) with
      | true =>
        constructor <;>
          simp [Legacy.sendLocation, hbl, Legacy.SendLocationResult.status]
      | false =>
        cases hbo : (!lon.isFinite || JSNum.lt lon (JSNum.finite (-180))
            || JSNum.lt (JSNum.finite 180) lon) with
        | true =>
          constructor <;>
            simp [Legacy.sendLocation, hbl, hbo, Legacy.SendLocationResult.status]
        | false =>
          exfalso
          rcases h with h | h | ⟨v, hv, hbad⟩ | ⟨v, hv, hbad⟩
          · exact Option.noConfusion h
          · exact Option.noConfusion h
          · obtain rfl := (Option.some.inj hv).symm
            rcases hbad with hfin | ⟨q, rfl, hq | hq⟩
            · simp [hfin] at hbl
            · have hlt : JSNum.lt (JSNum.finite q) (JSNum.finite (-90)) = true := by
                simp [JSNum.lt, hq]
              simp [hlt] at hbl
            · have hlt : JSNum.lt (JSNum.finite 90) (JSNum.finite q) = true := by
                simp [JSNum.lt, hq]
              simp [hlt] at hbl
          · obtain rfl := (Option.some.inj hv).symm
            rcases hbad with hfin | ⟨q, rfl, hq | hq⟩
            · simp [hfin] at hbo
            · have hlt : JSNum.lt (JSNum.finite q) (JSNum.finite (-180)) = true := by
                simp [JSNum.lt, hq]
              simp [hlt] at hbo
            · have hlt : JSNum.lt (JSNum.finite 180) (JSNum.finite q) = true := by
                simp [JSNum.lt, hq]
              simp [hlt] at hbo

/-- C3 witness: latitude 91 is rejected with status 400 and the store is
left unchanged. -/
theorem C3_witness :
    ((Legacy.sendLocation ⟨[], 0⟩ (some (JSNum.finite 91)) (some (JSNum.finite 0)) 0).1).status = 400 ∧
    (Legacy.sendLocation ⟨[], 0⟩ (some (JSNum.finite 91)) (some (JSNum.finite 0)) 0).2 = ⟨[], 0⟩ :=
  C3_sendLocation_rejects_invalid ⟨[], 0⟩ (some (JSNum.finite 91)) (some (JSNum.finite 0)) 0
    (Or.inr (Or.inr (Or.inl ⟨JSNum.finite 91, rfl,
      Or.inr ⟨91, rfl, Or.inr (by norm_num)⟩⟩)))

/-- C4: after a successful `POST /register`, a `POST /login` with the same
credentials succeeds and returns a token, and verifying that token before its
one-hour expiration yields claims whose id and email are the registered
user's id (the store id assigned at registration) and email. -/
theorem C4_register_login_verify_roundtrip (s : UserStore)
    (username email password secret : String) (now now2 : Nat)
    (hreg : (Backend.register s username email password).1 = .created)
    (hexp : now2 < now + 3600) :
    Backend.login (Backend.register s username email password).2 email password secret now
      = .success (jwtSign s.nextId email (now + 3600) secret) s.nextId username email ∧
    jwtVerify (jwtSign s.nextId email (now + 3600) secret) secret now2
      = some ⟨s.nextId, email⟩ := by
  obtain ⟨h1, h2, h3, hfe, hst⟩ := register_created s username email password hreg
  constructor
  · rw [hst]
    have hfind : findByEmail
        ⟨s.users ++ [⟨s.nextId, username, email, bcryptHash password 10⟩], s.nextId + 1⟩ email
        = some ⟨s.nextId, username, email, bcryptHash password 10⟩ := by
      unfold findByEmail at hfe ⊢
      simp [List.find?_append, hfe]
    simp [Backend.login, h2, h3, hfind, bcryptCompare]
  · exact jwtVerify_jwtSign _ _ _ _ _ hexp

/-- C4 witness: a concrete register/login/verify roundtrip. -/
theorem C4_witness :
    Backend.login (Backend.register ⟨[], 0⟩ "alice" "a@x.com" "secret1").2
        "a@x.com" "secret1" "sec" 0
      = .success (jwtSign 0 "a@x.com" (0 + 3600) "sec") 0 "alice" "a@x.com" ∧
    jwtVerify (jwtSign 0 "a@x.com" (0 + 3600) "sec") "sec" 5 = some ⟨0, "a@x.com"⟩ :=
  C4_register_login_verify_roundtrip ⟨[], 0⟩ "alice" "a@x.com" "secret1" "sec" 0 5
    rfl (by norm_num)

/-- C5: for the protected `GET /locations` route, a request whose
Authorization header carries no token answers 401 without running the
handler; a present token on which `jwt.verify` errors (malformed, forged or
expired) answers 403 without running the handler; a valid token attaches the
decoded claims to the request and the handler answers 200 with the recent
samples. -/
theorem C5_authorization_gate (h : Option String) (secret : String) (now : Nat)
    (store : LocStore) :
    (Backend.extractToken h = none →
      Backend.getLocations h secret now store = (401, none)) ∧
    (∀ t, Backend.extractToken h = some t → jwtVerify t secret now = none →
      Backend.getLocations h secret now store = (403, none)) ∧
    (∀ t c, Backend.extractToken h = some t → jwtVerify t secret now = some c →
      Backend.authenticateJWT h secret now = .proceed c ∧
      Backend.getLocations h secret now store = (200, some (listRecent store))) := by
  refine ⟨fun hn => ?_, fun t ht hv => ?_, fun t c ht hv => ?_⟩
  · simp [Backend.getLocations, Backend.authenticateJWT, hn]
  · simp [Backend.getLocations, Backend.authenticateJWT, ht, hv]
  · constructor <;> simp [Backend.getLocations, Backend.authenticateJWT, ht, hv]

/-- C5 witness: the three branches of the gate at concrete headers — absent
header, present but malformed token, and a freshly signed valid token. -/
theorem C5_witness :
    Backend.getLocations none "sec" 0 ⟨[], 0⟩ = (401, none) ∧
    Backend.getLocations (some "Bearer bogus") "sec" 0 ⟨[], 0⟩ = (403, none) ∧
    Backend.getLocations (some ("Bearer " ++ jwtSign 1 "a@x.com" 9 "sec")) "sec" 0 ⟨[], 0⟩
      = (200, some (listRecent ⟨[], 0⟩)) :=
  ⟨(C5_authorization_gate none "sec" 0 ⟨[], 0⟩).1 rfl,
   (C5_authorization_gate (some "Bearer bogus") "sec" 0 ⟨[], 0⟩).2.1 "bogus" rfl rfl,
   ((C5_authorization_gate (some ("Bearer " ++ jwtSign 1 "a@x.com" 9 "sec")) "sec" 0 ⟨[], 0⟩).2.2
      (jwtSign 1 "a@x.com" 9 "sec") ⟨1, "a@x.com"⟩ rfl
      (jwtVerify_jwtSign 1 "a@x.com" 9 "sec" 0 (by norm_num))).2⟩

lemma register_preserves_emailsNodup (s : UserStore) (username email password : String)
    (h : emailsNodup s) :
    emailsNodup (Backend.register s username email password).2 := by
  cases hb : (username.isEmpty || email.isEmpty || password.isEmpty) with
  | true => simpa [Backend.register, hb] using h
  | false =>
    cases hfe : findByEmail s email with
    | some u => simpa [Backend.register, hb, hfe] using h
    | none =>
      have hnone : ∀ v ∈ s.users, v.email ≠ email := by
        intro v hv heq
        have h2 := List.find?_eq_none.mp hfe v hv
        exact h2 (by simp [heq])
      have hst : (Backend.register s username email password).2
          = ⟨s.users ++ [⟨s.nextId, username, email, bcryptHash password 10⟩], s.nextId + 1⟩ := by
        simp [Backend.register, hb, hfe]
      unfold emailsNodup at h ⊢
      rw [hst]
      rw [List.pairwise_append]
      refine ⟨h, by simp, ?_⟩
      intro a ha b hb2
      simp only [List.mem_singleton] at hb2
      subst hb2
      exact hnone a ha

lemma registerSeq_preserves_emailsNodup (ops : List (String × String × String)) :
    ∀ s : UserStore, emailsNodup s → emailsNodup (registerSeq s ops) := by
  induction ops with
  | nil => intro s h; exact h
  | cons op rest ih =>
    intro s h
    exact ih _ (register_preserves_emailsNodup s op.1 op.2.1 op.2.2 h)

/-- C6: registering twice with the same email: the second call hits the
conflict branch and leaves the store untouched, the store then holds exactly
one User with that email, and (for any further sequence of register
operations) the at-most-one-User-per-email invariant is preserved. -/
theorem C6_one_user_per_email (s : UserStore) (u1 e p1 u2 p2 : String)
    (ops : List (String × String × String))
    (hinv : emailsNodup s)
    (hreg : (Backend.register s u1 e p1).1 = .created)
    (hu2 : u2.isEmpty = false) (hp2 : p2.isEmpty = false) :
    Backend.register (Backend.register s u1 e p1).2 u2 e p2
      = (.emailTaken, (Backend.register s u1 e p1).2) ∧
    ((Backend.register s u1 e p1).2.users.countP (fun u => u.email == e)) = 1 ∧
    emailsNodup (registerSeq (Backend.register s u1 e p1).2 ops) := by
  obtain ⟨h1, h2, h3, hfe, hst⟩ := register_created s u1 e p1 hreg
  have hfind2 : findByEmail (Backend.register s u1 e p1).2 e
      = some ⟨s.nextId, u1, e, bcryptHash p1 10⟩ := by
    rw [hst]
    unfold findByEmail at hfe ⊢
    simp [List.find?_append, hfe]
  refine ⟨?_, ?_, ?_⟩
  · generalize hs2 : (Backend.register s u1 e p1).2 = s2 at hfind2 ⊢
    simp [Backend.register, hu2, hp2, h2, hfind2]
  · rw [hst]
    have hz : s.users.countP (fun u => u.email == e) = 0 := by
      rw [List.countP_eq_zero]
      intro a ha
      exact List.find?_eq_none.mp hfe a ha
    simp [List.countP_append, hz]
  · exact registerSeq_preserves_emailsNodup ops _
      (register_preserves_emailsNodup s u1 e p1 hinv)

/-- C6 witness: a concrete duplicate registration is rejected and exactly one
alice remains, and a further registration keeps emails unique. -/
theorem C6_witness :
    Backend.register (Backend.register ⟨[], 0⟩ "alice" "a@x.com" "secret1").2
        "bob" "a@x.com" "pw2"
      = (.emailTaken, (Backend.register ⟨[], 0⟩ "alice" "a@x.com" "secret1").2) ∧
    ((Backend.register ⟨[], 0⟩ "alice" "a@x.com" "secret1").2.users.countP
        (fun u => u.email == "a@x.com")) = 1 ∧
    emailsNodup (registerSeq (Backend.register ⟨[], 0⟩ "alice" "a@x.com" "secret1").2
        [("carol", "c@x.com", "pw3")]) :=
  C6_one_user_per_email ⟨[], 0⟩ "alice" "a@x.com" "secret1" "bob" "pw2"
    [("carol", "c@x.com", "pw3")] (by simp [emailsNodup]) rfl rfl rfl

lemma byCreatedAtDesc_trans : ∀ a b c : LocationSample,
    byCreatedAtDesc a b = true → byCreatedAtDesc b c = true → byCreatedAtDesc a c = true := by
  intro a b c hab hbc
  simp only [byCreatedAtDesc, decide_eq_true_eq] at *
  omega

lemma byCreatedAtDesc_total : ∀ a b : LocationSample,
    (byCreatedAtDesc a b || byCreatedAtDesc b a) = true := by
  intro a b
  simp only [byCreatedAtDesc, Bool.or_eq_true, decide_eq_true_eq]
  omega

/-- C7: `GET /locations` returns at most 10 samples in `createdAt`-descending
order for every store state, and after a successful `POST /send-location`
(whose timestamp is later than every stored sample's) the new sample is the
first entry the listing returns. -/
theorem C7_listRecent_capped_sorted_newest_first (st store : LocStore)
    (lat lon : JSNum) (now : Nat) (loc : LocationSample) (st2 : LocStore)
    (hfresh : ∀ x ∈ store.samples, x.createdAt < now)
    (hsub : Legacy.sendLocation store (some lat) (some lon) now = (.saved loc, st2)) :
    (listRecent st).length ≤ 10 ∧
    (listRecent st).Pairwise (fun a b => b.createdAt ≤ a.createdAt) ∧
    (listRecent st2).head? = some loc := by
  refine ⟨?_, ?_, ?_⟩
  · simp only [listRecent, List.length_take]
    exact Nat.min_le_left _ _
  · have hsorted := List.sorted_mergeSort byCreatedAtDesc_trans byCreatedAtDesc_total
      st.samples
    have hsub2 : (listRecent st).Pairwise (fun a b => byCreatedAtDesc a b = true) :=
      List.Pairwise.sublist (List.take_sublist 10 _) hsorted
    exact hsub2.imp (fun hab => by simpa [byCreatedAtDesc] using hab)
  · have hvalid : loc = ⟨store.nextId, lat, lon, now⟩ ∧
        st2 = ⟨store.samples ++ [⟨store.nextId, lat, lon, now⟩], store.nextId + 1⟩ := by
      simp only [Legacy.sendLocation] at hsub
      cases hbl : (!lat.isFinite || JSNum.lt lat (JSNum.finite (-90))
          || JSNum.lt (JSNum.finite 90) lat) with
      | true => rw [hbl] at hsub; simp at hsub
      | false =>
        rw [hbl] at hsub
        cases hbo : (!lon.isFinite || JSNum.lt lon (JSNum.finite (-180))
            || JSNum.lt (JSNum.finite 180) lon) with
        | true => rw [hbo] at hsub; simp at hsub
        | false =>
          rw [hbo] at hsub
          simp only [Bool.false_eq_true, if_false, Prod.mk.injEq] at hsub
          obtain ⟨hres, hstore⟩ := hsub
          exact ⟨(Legacy.SendLocationResult.saved.inj hres).symm, hstore.symm⟩
    obtain ⟨hloc, hst2⟩ := hvalid
    rw [← hloc] at hst2
    have hca : loc.createdAt = now := by rw [hloc]
    subst hst2
    have hmem : loc ∈ (store.samples ++ [loc]).mergeSort byCreatedAtDesc := by
      rw [List.mem_mergeSort]
      simp
    have hsorted2 := List.sorted_mergeSort byCreatedAtDesc_trans byCreatedAtDesc_total
      (store.samples ++ [loc])
    cases hLc : (store.samples ++ [loc]).mergeSort byCreatedAtDesc with
    | nil => rw [hLc] at hmem; simp at hmem
    | cons h0 tl =>
      have hh0mem : h0 ∈ store.samples ++ [loc] := by
        rw [← @List.mem_mergeSort _ byCreatedAtDesc h0 (store.samples ++ [loc]), hLc]
        exact List.mem_cons_self _ _
      have hh0 : h0 = loc := by
        rcases List.mem_append.mp hh0mem with hin | hin
        · exfalso
          have hlt : h0.createdAt < now := hfresh h0 hin
          rw [hLc] at hmem hsorted2
          rcases List.mem_cons.mp hmem with heq | hintl
          · rw [← heq, hca] at hlt
            exact lt_irrefl _ hlt
          · have hle := (List.pairwise_cons.mp hsorted2).1 _ hintl
            simp only [byCreatedAtDesc, decide_eq_true_eq] at hle
            rw [hca] at hle
            omega
        · simpa using hin
      subst hh0
      simp only [listRecent]
      rw [hLc]
      rfl

/-- C7 witness: with one older sample stored, a freshly submitted valid
coordinate pair becomes the first entry of the listing. -/
theorem C7_witness :
    (listRecent ⟨[⟨0, JSNum.finite 1, JSNum.finite 2, 3⟩], 1⟩).length ≤ 10 ∧
    (listRecent ⟨[⟨0, JSNum.finite 1, JSNum.finite 2, 3⟩], 1⟩).Pairwise
      (fun a b => b.createdAt ≤ a.createdAt) ∧
    (listRecent ⟨[⟨0, JSNum.finite 1, JSNum.finite 2, 3⟩,
        ⟨1, JSNum.finite 37, JSNum.finite (-122), 4⟩], 2⟩).head?
      = some ⟨1, JSNum.finite 37, JSNum.finite (-122), 4⟩ :=
  C7_listRecent_capped_sorted_newest_first
    ⟨[⟨0, JSNum.finite 1, JSNum.finite 2, 3⟩], 1⟩
    ⟨[⟨0, JSNum.finite 1, JSNum.finite 2, 3⟩], 1⟩
    (JSNum.finite 37) (JSNum.finite (-122)) 4
    ⟨1, JSNum.finite 37, JSNum.finite (-122), 4⟩
    ⟨[⟨0, JSNum.finite 1, JSNum.finite 2, 3⟩,
      ⟨1, JSNum.finite 37, JSNum.finite (-122), 4⟩], 2⟩
    (by decide)
    (by decide)

/-- C10: `authenticateJWT` never inspects the authentication scheme: it takes
the second space-separated component of the Authorization header as the
token, so a valid JWT is accepted under any scheme word (first conjunct,
e.g. `Basic <jwt>`), while a header consisting of a single word carries no
second component and is rejected as a missing token with 401 (second
conjunct). -/
theorem C10_scheme_ignored_single_word_unauthorized
    (w t secret : String) (now : Nat) (c : Claims) (single : String)
    (hw : ∀ ch ∈ w.data, ch ≠ ' ') (ht : ∀ ch ∈ t.data, ch ≠ ' ')
    (hv : jwtVerify t secret now = some c)
    (hs : ∀ ch ∈ single.data, ch ≠ ' ') :
    Backend.authenticateJWT (some (w ++ " " ++ t)) secret now = .proceed c ∧
    Backend.authenticateJWT (some single) secret now = .unauthorized := by
  constructor
  · have hdata : (w ++ " " ++ t).data = w.data ++ (' ' :: t.data) := by
      simp [String.data_append]
    have hsplit_t : splitCh ' ' t.data = [t.data] := splitCh_no_sep ' ' t.data ht
    have hsplit_st : splitCh ' ' (' ' :: t.data) = [[], t.data] := by
      unfold splitCh
      rw [hsplit_t]
      simp
    have hsplit : splitCh ' ' ((w ++ " " ++ t).data) = [w.data, t.data] := by
      rw [hdata, splitCh_append_no_sep ' ' w.data (' ' :: t.data) [] [t.data] hw hsplit_st]
      simp
    have htne : t.data ≠ [] := by
      intro h0
      have hnone : jwtVerify t secret now = none := by
        unfold jwtVerify jwtDecode
        rw [h0]
        rfl
      rw [hnone] at hv
      exact Option.noConfusion hv
    have hie : t.data.isEmpty = false := by
      cases hdd : t.data with
      | nil => exact absurd hdd htne
      | cons a l => rfl
    have hex : Backend.extractToken (some (w ++ " " ++ t)) = some t := by
      simp only [Backend.extractToken, hsplit, List.get?, hie, Bool.false_eq_true,
        if_false]
    simp only [Backend.authenticateJWT, hex, hv]
  · have hsplit1 : splitCh ' ' single.data = [single.data] :=
      splitCh_no_sep ' ' single.data hs
    simp only [Backend.authenticateJWT, Backend.extractToken, hsplit1, List.get?]

/-- C10 witness: a valid token under the `Basic` scheme word is accepted with
the decoded claims, and the bare word `Bearer` with no token yields 401. -/
theorem C10_witness :
    Backend.authenticateJWT (some ("Basic" ++ " " ++ jwtSign 1 "a@x.com" 9 "sec")) "sec" 0
      = .proceed ⟨1, "a@x.com"⟩ ∧
    Backend.authenticateJWT (some "Bearer") "sec" 0 = .unauthorized :=
  C10_scheme_ignored_single_word_unauthorized "Basic" (jwtSign 1 "a@x.com" 9 "sec")
    "sec" 0 ⟨1, "a@x.com"⟩ "Bearer"
    (by decide) (by decide)
    (jwtVerify_jwtSign 1 "a@x.com" 9 "sec" 0 (by norm_num))
    (by decide)
